import Mathlib

/-!
Verification development for the `codescanner` repository.

The definitions below are a shallow embedding of the Python sources:
`src/codescanner/__init__.py` (the `analyse` orchestrator, `Rule`,
`_get_includes`, `_get_excludes`, `_filter`, `_snake_case`),
`src/codescanner/rule.py` and `src/codescanner/report.py`.
Python strings are Lean `String`s, Python dicts (which preserve insertion
order) are association lists, Python exceptions are an explicit error type
threaded through `Except`, and the directory tree handed to `Path.walk` is an
inductive tree.  Definitions carry comments naming the source code they
translate.
-/

namespace Codescanner

/-- Python exceptions that the embedded code can raise.  `valueError` keeps the
full argument tuple (e.g. `ValueError("Invalid exclusion rule.", val)` carries
two arguments). -/
inductive PyErr where
  | valueError (args : List String)
  | typeError (msg : String)
  | indexError (msg : String)
  | keyError (msg : String)
  deriving DecidableEq, Repr

/-! ## fnmatch

`Rule.match` delegates to Python's `fnmatch.fnmatch(val, self.val)` (shell
glob matching, where `*` matches any run of characters including `/`).  The
matcher below follows `fnmatch.translate`: `*` becomes `.*`, `?` becomes `.`,
`[...]` is a character class (with `!` negation, ranges, and a literal `]`
allowed as the first member); a `[` without a closing `]` is a literal `[`.
On POSIX `os.path.normcase` is the identity, so no case folding happens. -/

/-- Splits a character-class body at the first `]`, returning the class
content and the rest of the pattern; `none` when no `]` exists. -/
def splitClass : List Char → Option (List Char × List Char)
  | [] => none
  | c :: rest =>
    if c = ']' then some ([], rest)
    else (splitClass rest).map (fun p => (c :: p.1, p.2))

/-- Class body after the optional negation marker: a `]` right at the start is
a literal member; the body ends at the next `]`. -/
def classBody (cs : List Char) : Option (List Char × List Char) :=
  match cs with
  | [] => none
  | c :: rest =>
    if c = ']' then (splitClass rest).map (fun q => (']' :: q.1, q.2))
    else splitClass (c :: rest)

/-- Parses the pattern chars following a `[`: an optional leading `!`
(negation) followed by the class body.  Returns
`(negated, content, rest-of-pattern)`; `none` means there is no closing `]`
and the `[` is to be taken literally. -/
def parseClass (cs : List Char) : Option (Bool × List Char × List Char) :=
  match cs with
  | [] => none
  | c :: rest =>
    if c = '!' then (classBody rest).map (fun q => (true, q.1, q.2))
    else (classBody (c :: rest)).map (fun q => (false, q.1, q.2))

/-- Membership of a character in a class body, with `a-z` ranges (a trailing
`-` is a literal, as in regular expressions). -/
def inClass : List Char → Char → Bool
  | c1 :: '-' :: c2 :: rest, c => (c1 ≤ c && c ≤ c2) || inClass rest c
  | c1 :: rest, c => c1 == c || inClass rest c
  | [], _ => false

/-- One step of the glob matcher, on explicit fuel.  Every recursive call
strictly shrinks `2 * pattern.length + string.length` (a parsed class consumes
at least the closing `]`), so fuel exceeding that measure never reaches the
`0` cutoff; the structural recursion on fuel keeps the function kernel-
reducible. -/
def globMatchF : Nat → List Char → List Char → Bool
  | 0, _, _ => false
  | fuel + 1, p, s =>
    match p, s with
    | [], [] => true
    | [], _ :: _ => false
    | '*' :: ps, [] => globMatchF fuel ps []
    | '*' :: ps, c :: cs =>
      globMatchF fuel ps (c :: cs) || globMatchF fuel ('*' :: ps) cs
    | '?' :: ps, _ :: cs => globMatchF fuel ps cs
    | '?' :: _, [] => false
    | '[' :: ps, s =>
      match parseClass ps with
      | some (neg, content, rest) =>
        match s with
        | c :: cs => (inClass content c != neg) && globMatchF fuel rest cs
        | [] => false
      | none =>
        match s with
        | c :: cs => (c == '[') && globMatchF fuel ps cs
        | [] => false
    | pc :: ps, c :: cs => pc == c && globMatchF fuel ps cs
    | _ :: _, [] => false

/-- Shell glob matching of a candidate string against a pattern, after
`fnmatch.translate`: the first argument is the pattern, the second the
candidate string. -/
def globMatch (p s : List Char) : Bool :=
  globMatchF (2 * p.length + s.length + 1) p s

/-! ## Rule

`rule.py` and the identical copy in `__init__.py` (lines 33-68) parse a
single include/exclude pattern into a `Rule` dataclass with flags
`is_dir` (trailing `/`), `is_nested` (leading `/`, or a `/` left in the
pattern after stripping), `is_pattern` (glob metacharacters) and an owner
list `analysers`. -/

/-- Checks if rule value is a pattern (`_is_pattern` in `rule.py`). -/
def _is_pattern (val : List Char) : Bool :=
  val.contains '*' || val.contains '?' || val.contains '['

/-- Checks if rule value is nested (`_is_nested` in `rule.py`). -/
def _is_nested (val : List Char) : Bool :=
  val.contains '/'

/-- The `Rule` dataclass: stored (stripped) pattern and derived flags. -/
structure Rule where
  val : String
  is_dir : Bool
  is_pattern : Bool
  is_nested : Bool
  analysers : List String
  deriving DecidableEq, Repr

/-- `Rule.__init__(val, analyser)`.  Python indexes `val[-1]` and (after
stripping a trailing `/`) `val[0]`, which raises `IndexError` on an empty
string — hence the `Except`.  The optional `analyser` argument is a class
object in Python (always truthy when given), modelled by its name. -/
def ruleInit (val : String) (analyser : Option String) : Except PyErr Rule := do
  let cs := val.data
  -- self.is_dir = val[-1] == '/'
  match cs.getLast? with
  | none => throw (.indexError "string index out of range")
  | some lastc =>
    let is_dir := lastc == '/'
    let cs := if is_dir then cs.dropLast else cs
    -- self.is_nested = val[0] == '/'
    match cs with
    | [] => throw (.indexError "string index out of range")
    | c0 :: rest =>
      let (is_nested, cs) :=
        if c0 == '/' then (true, rest) else (_is_nested (c0 :: rest), c0 :: rest)
      pure { val := String.mk cs
             is_dir := is_dir
             is_pattern := _is_pattern cs
             is_nested := is_nested
             analysers := match analyser with | some a => [a] | none => [] }

/-- `Rule.match(val)`: `fnmatch.fnmatch(val, self.val)` (named `matches`
because `match` is reserved in Lean). -/
def Rule.matches (r : Rule) (val : String) : Bool :=
  globMatch r.val.data val.data

/-! ## Report (`report.py`)

`Report` owns the severity-keyed message log, the provenance-tracked
metadata store and the per-analyser results.  Messages and metadata are
Python dicts keyed by `MessageType` members resp. attribute strings; both
preserve insertion order and are modelled as association lists. -/

/-- `MessageType` enum (values 1-5, increasing importance). -/
inductive MessageType where
  | INFO
  | SUGGESTION
  | NOTICE
  | WARNING
  | ISSUE
  deriving DecidableEq, BEq, Repr

/-- The numeric `value` of each `MessageType` member. -/
def MessageType.value : MessageType → Nat
  | .INFO => 1
  | .SUGGESTION => 2
  | .NOTICE => 3
  | .WARNING => 4
  | .ISSUE => 5

/-- The members of `MessageType` in definition (= dict iteration) order. -/
def MessageType.all : List MessageType :=
  [.INFO, .SUGGESTION, .NOTICE, .WARNING, .ISSUE]

/-- The `analyser` argument carried by messages and metadata entries: either
an analyser class (identified by its name) or the `Report` object itself
(`analyse_metadata` passes `self` as the analyser). -/
inductive AnalyserRef where
  | cls (name : String)
  | reportSelf
  deriving DecidableEq, Repr

/-- Python values stored as metadata: `None`, strings, numbers and lists
(the codomain of `report.add_metadata`'s `val` argument that the embedded
claims exercise). -/
inductive MetaVal where
  | none
  | str (s : String)
  | int (n : Int)
  | list (items : List MetaVal)
  deriving Repr

mutual

/-- Structural equality on `MetaVal` (Python `==`). -/
def MetaVal.beq : MetaVal → MetaVal → Bool
  | .none, .none => true
  | .str a, .str b => a == b
  | .int a, .int b => a == b
  | .list a, .list b => MetaVal.beqList a b
  | _, _ => false

/-- Memberwise equality of value lists. -/
def MetaVal.beqList : List MetaVal → List MetaVal → Bool
  | [], [] => true
  | a :: as, b :: bs => MetaVal.beq a b && MetaVal.beqList as bs
  | _, _ => false

end

instance : BEq MetaVal := ⟨MetaVal.beq⟩

mutual

/-- `is_empty` from `report.py`: `None`, blank strings, and lists all of whose
members are empty, are empty; anything else is not.  (Python also treats
dicts like lists here; dict values are not needed by the claims.) -/
def is_empty : MetaVal → Bool
  | .none => true
  -- `val.strip() == ''` — a string is blank iff every char is whitespace
  | .str s => s.data.all Char.isWhitespace
  | .int _ => false
  | .list items => is_emptyList items

/-- The loop of `is_empty` over a collection: empty iff every member is. -/
def is_emptyList : List MetaVal → Bool
  | [] => true
  | x :: xs => is_empty x && is_emptyList xs

end

/-- One metadata assertion: value, source analyser, optional source path and
the sequence id (`self.uid` at insertion time). -/
structure MetaEntry where
  val : MetaVal
  analyser : AnalyserRef
  path : Option String
  id : Nat
  deriving Repr

/-- Helper for `is_list`: walks the items keeping the set of seen ids. -/
def is_listAux : List MetaEntry → List Nat → Bool
  | [], _ => false
  | item :: rest, ids =>
    if ids.contains item.id then true else is_listAux rest (ids ++ [item.id])

/-- `is_list` from `report.py`: true iff two entries share a sequence id
(one analyser call emitted several values for the key at once). -/
def is_list (items : List MetaEntry) : Bool :=
  is_listAux items []

/-- A message in the severity log.  `path` is `None`, or the stored list of
paths (the empty-list argument is stored unconverted, hence `some []`). -/
structure ReportMessage where
  val : String
  analyser : AnalyserRef
  path : Option (List String)
  deriving DecidableEq, Repr

/-- The `path` argument of `add_message`: `None`, a single path, or a list of
paths (whose members can be `None`, as in `analyse_metadata`). -/
inductive PathArg where
  | none
  | one (p : String)
  | many (ps : List (Option String))
  deriving DecidableEq, Repr

/-- The `type` argument of `add_message`: either a real `MessageType` member
or some other Python value (failing the `isinstance` check). -/
inductive MsgTypeArg where
  | valid (t : MessageType)
  | invalid (repr : String)
  deriving DecidableEq, Repr

/-! ### Metadata validation regexes

`Report.REGEXP_DOI` is `10\.\d{4,9}/[-._;()/:a-z\d]+` and `Report.REGEXP_URL`
is `((http|ftp)(s)?):\/\/(www\.)?[a-z\d@:%._\+~#=-]{2,256}\.[a-z]{2,6}\b([-a-z\d@:%_\+.~#?&//=]*)`,
both compiled with `re.IGNORECASE` and applied with `re.fullmatch`.  The
matchers below decide the same languages (over ASCII inputs) by searching the
bounded quantifier splits explicitly. -/

/-- ASCII letter of either case (the regexes are case-insensitive). -/
def isLetter (c : Char) : Bool :=
  ('a' ≤ c && c ≤ 'z') || ('A' ≤ c && c ≤ 'Z')

/-- Characters allowed after the `/` in a DOI: `[-._;()/:a-z\d]` (ignorecase). -/
def isDoiTailChar (c : Char) : Bool :=
  c.isDigit || isLetter c || c == '-' || c == '.' || c == '_' || c == ';' ||
  c == '(' || c == ')' || c == '/' || c == ':'

/-- Full match against `REGEXP_DOI`: `10.`, four to nine digits, `/`, then a
nonempty run of DOI tail characters. -/
def doiFullmatch (s : String) : Bool :=
  match s.data with
  | '1' :: '0' :: '.' :: rest =>
    (List.range 6).any (fun i =>
      let k := 4 + i
      ((rest.take k).length == k) && ((rest.take k).all Char.isDigit) &&
      (match rest.drop k with
       | '/' :: tail => !tail.isEmpty && tail.all isDoiTailChar
       | _ => false))
  | _ => false

/-- Host characters of `REGEXP_URL`: `[a-z\d@:%._\+~#=-]` (ignorecase). -/
def isUrlHostChar (c : Char) : Bool :=
  isLetter c || c.isDigit || c == '@' || c == ':' || c == '%' || c == '.' ||
  c == '_' || c == '+' || c == '~' || c == '#' || c == '=' || c == '-'

/-- Trailing characters of `REGEXP_URL`: `[-a-z\d@:%_\+.~#?&//=]` (ignorecase). -/
def isUrlTailChar (c : Char) : Bool :=
  isLetter c || c.isDigit || c == '-' || c == '@' || c == ':' || c == '%' ||
  c == '_' || c == '+' || c == '.' || c == '~' || c == '#' || c == '?' ||
  c == '&' || c == '/' || c == '='

/-- Regex word character, for the `\b` boundary in `REGEXP_URL`. -/
def isWordChar (c : Char) : Bool :=
  isLetter c || c.isDigit || c == '_'

/-- Matches `[a-z\d@:%._\+~#=-]{2,256}\.[a-z]{2,6}\b([-a-z\d@:%_\+.~#?&//=]*)`
against an (already lowercased) character list, searching all splits of the
two bounded repetitions. -/
def urlHostMatch (cs : List Char) : Bool :=
  (List.range 255).any (fun i =>
    let hlen := 2 + i
    let host := cs.take hlen
    (host.length == hlen) && host.all isUrlHostChar &&
    (match cs.drop hlen with
     | '.' :: afterDot =>
       (List.range 5).any (fun j =>
         let tlen := 2 + j
         let tld := afterDot.take tlen
         (tld.length == tlen) && tld.all (fun c => 'a' ≤ c && c ≤ 'z') &&
         (let tail := afterDot.drop tlen
          -- \b: the TLD letter is a word char, so the next char (if any)
          -- must not be one; then the rest must all be tail chars
          (match tail with
           | [] => true
           | t :: _ => !isWordChar t) && tail.all isUrlTailChar))
     | _ => false))

/-- Full match against `REGEXP_URL`: scheme `http|ftp` with optional `s`,
`://`, optional `www.`, then host, dot, TLD, word boundary and tail.  All
character classes are case-insensitive, so the input is lowercased first. -/
def urlFullmatch (s : String) : Bool :=
  let ls := s.data.map Char.toLower
  let afterScheme : Option (List Char) :=
    match ls with
    | 'h' :: 't' :: 't' :: 'p' :: 's' :: ':' :: '/' :: '/' :: rest => some rest
    | 'h' :: 't' :: 't' :: 'p' :: ':' :: '/' :: '/' :: rest => some rest
    | 'f' :: 't' :: 'p' :: 's' :: ':' :: '/' :: '/' :: rest => some rest
    | 'f' :: 't' :: 'p' :: ':' :: '/' :: '/' :: rest => some rest
    | _ => Option.none
  match afterScheme with
  | Option.none => false
  | some rest =>
    match rest with
    | 'w' :: 'w' :: 'w' :: '.' :: rest2 => urlHostMatch rest2 || urlHostMatch rest
    | _ => urlHostMatch rest

/-- `Report.validate_metadata(key, val)`: `doi` values must match the DOI
regex, `repository_code` values the URL regex; other keys pass.  A non-string
value for a validated key makes `re.fullmatch` raise a `TypeError`. -/
def validate_metadata (key : String) (val : MetaVal) : Except PyErr Unit :=
  if key == "doi" then
    match val with
    | .str s => if doiFullmatch s then pure () else throw (.valueError ["Invalid DOI."])
    | _ => throw (.typeError "expected string or bytes-like object")
  else if key == "repository_code" then
    match val with
    | .str s => if urlFullmatch s then pure () else throw (.valueError ["Invalid URL address."])
    | _ => throw (.typeError "expected string or bytes-like object")
  else pure ()

/-- The analysis report object (`Report.__init__`): messages keyed by every
`MessageType`, empty metadata, results and stats, and the sequence counter
`uid` at zero.  (`results` and `stats` are never written by the embedded
operations, exactly as in the source, where `analyse` never constructs a
`Report` at all.) -/
structure Report where
  path : String
  messages : List (MessageType × List ReportMessage)
  metadata : List (String × List MetaEntry)
  results : List (String × Unit)
  stats : List (String × Nat)
  uid : Nat
  deriving Repr

/-- `Report(path)`. -/
def Report.init (path : String) : Report :=
  { path := path
    messages := MessageType.all.map (fun t => (t, []))
    metadata := []
    results := []
    stats := []
    uid := 0 }

/-- Converts the members of a path list, as the comprehension in
`add_message` does: `Path(item)` raises a `TypeError` on `None`. -/
def convertPathList (ps : List (Option String)) : Except PyErr (List String) :=
  ps.mapM (fun p =>
    match p with
    | some s => pure s
    | Option.none =>
      throw (.typeError "argument should be a str or an os.PathLike object, not NoneType"))

/-- `Report.add_message(type, analyser, msg, path)`: rejects a non-member
`type` with `ValueError("Invalid message type.")`, normalizes truthy `path`
arguments to a list of paths, and appends to `self.messages[type]`. -/
def Report.add_message (r : Report) (type : MsgTypeArg) (analyser : AnalyserRef)
    (msg : String) (path : PathArg) : Except PyErr Report := do
  match type with
  | .invalid _ => throw (.valueError ["Invalid message type."])
  | .valid t =>
    -- `if path:` — None and the empty list are falsy and stored untouched
    let stored : Option (List String) ←
      match path with
      | .none => pure Option.none
      | .one p => pure (some [p])
      | .many ps =>
        if ps.isEmpty then pure (some [])
        else do
          let l ← convertPathList ps
          pure (some l)
    match List.lookup t r.messages with
    | Option.none => throw (.keyError "MessageType")
    | some _ =>
      pure { r with messages :=
        r.messages.map (fun kv =>
          if kv.1 == t then (kv.1, kv.2 ++ [⟨msg, analyser, stored⟩]) else kv) }

/-- `Report.add_issue`. -/
def Report.add_issue (r : Report) (analyser : AnalyserRef) (msg : String)
    (path : PathArg) : Except PyErr Report :=
  r.add_message (.valid .ISSUE) analyser msg path

/-- `Report.add_warning`. -/
def Report.add_warning (r : Report) (analyser : AnalyserRef) (msg : String)
    (path : PathArg) : Except PyErr Report :=
  r.add_message (.valid .WARNING) analyser msg path

/-- `Report.add_notice`. -/
def Report.add_notice (r : Report) (analyser : AnalyserRef) (msg : String)
    (path : PathArg) : Except PyErr Report :=
  r.add_message (.valid .NOTICE) analyser msg path

/-- `Report.add_suggestion`. -/
def Report.add_suggestion (r : Report) (analyser : AnalyserRef) (msg : String)
    (path : PathArg) : Except PyErr Report :=
  r.add_message (.valid .SUGGESTION) analyser msg path

/-- `Report.add_info`. -/
def Report.add_info (r : Report) (analyser : AnalyserRef) (msg : String)
    (path : PathArg) : Except PyErr Report :=
  r.add_message (.valid .INFO) analyser msg path

/-- Appends an entry to `self.metadata[key]` (the key is always present when
this runs, because `add_metadata` creates it first). -/
def mdAppend (md : List (String × List MetaEntry)) (key : String)
    (e : MetaEntry) : List (String × List MetaEntry) :=
  md.map (fun kv => if kv.1 == key then (kv.1, kv.2 ++ [e]) else kv)

/-- `Report.add_metadata(analyser, key, val, path)`: drops empty values,
ensures the key, bumps the sequence counter once, then per value validates
and appends.  When validation fails the `except` handler executes
`self.add_issue(analyser, key, str(err), path)` — four positional arguments
for the three-parameter `add_issue` — so Python raises a `TypeError` there
instead of recording an Issue.  (Being pure, the model discards the partial
mutations made before an exception.) -/
def Report.add_metadata (r : Report) (analyser : AnalyserRef) (key : String)
    (val : MetaVal) (path : Option String) : Except PyErr Report :=
  -- Return if empty value
  if is_empty val then pure r
  else do
    -- Initialize metadata list if required
    let md0 := if (List.lookup key r.metadata).isSome then r.metadata
               else r.metadata ++ [(key, [])]
    -- Increase id counter
    let uid := r.uid + 1
    -- For each value (a list argument contributes each member)
    let vals := match val with | .list xs => xs | v => [v]
    let md ← vals.foldlM (fun md v =>
      -- Skip if empty value — the source tests `val` (the whole argument),
      -- not `_val`, so this never skips an individual member
      if is_empty val then pure md
      else
        match validate_metadata key v with
        | .error _ =>
          throw (.typeError
            "Report.add_issue() takes from 3 to 4 positional arguments but 5 were given")
        | .ok _ =>
          pure (mdAppend md key { val := v, analyser := analyser, path := path, id := uid }))
      md0
    pure { r with metadata := md, uid := uid }

/-- `Report.has_metadata(key)`. -/
def Report.has_metadata (r : Report) (key : String) : Bool :=
  (List.lookup key r.metadata).isSome

/-- `Report.get_metadata(key)`: the first entry's value, else `None`. -/
def Report.get_metadata (r : Report) (key : String) : Option MetaVal :=
  match List.lookup key r.metadata with
  | some (e :: _) => some e.val
  | some [] => Option.none
  | Option.none => Option.none

/-- `Report.analyse_metadata()`: for every key with at least two entries that
is not list-valued, every later entry whose value differs from the first
entry's value yields
`add_issue(self, "Multiple values exists for <key>.", [first.path, item.path])`. -/
def Report.analyse_metadata (r : Report) : Except PyErr Report :=
  r.metadata.foldlM (fun r kv =>
    match kv with
    | (_, []) => pure r
    | (key, first :: rest) =>
      -- Skip if unique value
      if rest.isEmpty then pure r
      -- Check if it is a value list
      else if is_list (first :: rest) then pure r
      else rest.foldlM (fun r item =>
        if item.val == first.val then pure r
        else Report.add_issue r .reportSelf
          ("Multiple values exists for " ++ key ++ ".")
          (.many [first.path, item.path])) r) r

/-! ## Registry and orchestrator (`__init__.py`)

`get_analysers()` / `get_aggregators()` discover the plugin classes by
reflection; the embedding receives their observable interface — name (the
snake-cased class name used as the dict key), `get_type()`, and the
`includes(path)` / `excludes(path)` pattern lists — as explicit data.  The
pattern lists returned for the scanned root are carried directly. -/

/-- The `AnalyserType` enum of `analyser/__init__.py`, in definition order. -/
inductive AnalyserType where
  | CITATION
  | CODE
  | COMMUNITY
  | DEPENDENCY
  | DOCUMENTATION
  | LICENSE
  | METADATA
  | PACKAGING
  | REPOSITORY
  | VERSION_CONTROL
  deriving DecidableEq, BEq, Repr

/-- The string `value` of each `AnalyserType` member. -/
def AnalyserType.value : AnalyserType → String
  | .CITATION => "Citation"
  | .CODE => "Code"
  | .COMMUNITY => "Community"
  | .DEPENDENCY => "Dependency"
  | .DOCUMENTATION => "Documentation"
  | .LICENSE => "License"
  | .METADATA => "Metadata"
  | .PACKAGING => "Packaging"
  | .REPOSITORY => "Repository"
  | .VERSION_CONTROL => "Version Control"

/-- The members of `AnalyserType` in definition (= dict iteration) order. -/
def AnalyserType.all : List AnalyserType :=
  [.CITATION, .CODE, .COMMUNITY, .DEPENDENCY, .DOCUMENTATION,
   .LICENSE, .METADATA, .PACKAGING, .REPOSITORY, .VERSION_CONTROL]

/-- The interface of one analyser class: `get_type()` and the pattern lists
`includes(path)` and `excludes(path)` return for the scanned root. -/
structure AnalyserSpec where
  type : AnalyserType
  includes : List String
  excludes : List String
  deriving Repr

/-- The interface of one aggregator class: `get_type()`. -/
structure AggregatorSpec where
  type : AnalyserType
  deriving Repr

/-- `get_analysers()`: name (snake-cased class name) to class, in discovery
order. -/
abbrev Registry := List (String × AnalyserSpec)

/-- `get_aggregators()`. -/
abbrev AggRegistry := List (String × AggregatorSpec)

/-- `_snake_case(val)`: `REGEXP_SNAKE_CASE.sub('_', val).lower()` — an
underscore before every uppercase letter except at the start, then
lowercase. -/
def _snake_case (s : String) : String :=
  match s.data with
  | [] => ""
  | c :: rest =>
    String.mk ((c :: rest.foldr
      (fun ch acc => (if ch.isUpper then ['_', ch] else [ch]) ++ acc) []).map
      Char.toLower)

/-- `_filter(items, skip, skip_type)`: drop the entries whose name is in
`skip` or whose `get_type().value` is in `skip_type`.  Polymorphic over the
item type, exactly as the Python version is used for both analysers and
aggregators. -/
def _filter {α : Type} (get_type : α → AnalyserType) (items : List (String × α))
    (skip skip_type : List String) : List (String × α) :=
  items.filter (fun it =>
    !(skip.contains it.1) && !(skip_type.contains (get_type it.2).value))

/-- `_get_includes(path, analysers)`: one `Rule` per distinct pattern string,
created without an owner and extended with every contributing analyser's
name, keys in first-appearance order.  `if not analysers:` falls back to
`get_analysers()` — the full registry — when the given dict is `None` or
empty, so `registry` is threaded in for that default. -/
def _get_includes (registry : Registry) (analysers0 : Registry) :
    Except PyErr (List (String × Rule)) :=
  let analysers := if analysers0.isEmpty then registry else analysers0
  analysers.foldlM (fun items na =>
    na.2.includes.foldlM (fun items val => do
      let items ←
        if (List.lookup val items).isSome then pure items
        else do
          let r ← ruleInit val Option.none
          pure (items ++ [(val, r)])
      pure (items.map (fun kv =>
        if kv.1 == val then (kv.1, { kv.2 with analysers := kv.2.analysers ++ [na.1] })
        else kv)))
      items) []

/-- Overwrites the value at an existing key (keeping its position, as a
Python dict does) or appends a new key. -/
def assocSet (items : List (String × Rule)) (key : String) (r : Rule) :
    List (String × Rule) :=
  if (List.lookup key items).isSome then
    items.map (fun kv => if kv.1 == key then (kv.1, r) else kv)
  else items ++ [(key, r)]

/-- The body of `_get_excludes`' inner loop: build the rule (owned by the
contributing analyser — Python passes the class object), reject a
non-directory rule with `ValueError("Invalid exclusion rule.", val)`, else
store it. -/
def excludeStep (name : String) (items : List (String × Rule)) (val : String) :
    Except PyErr (List (String × Rule)) := do
  let rule ← ruleInit val (some name)
  if !rule.is_dir then throw (.valueError ["Invalid exclusion rule.", val])
  else pure (assocSet items val rule)

/-- `_get_excludes(path, analysers)`: one pass of `excludeStep` per exclude
pattern of every analyser.  Like `_get_includes`, an `if not analysers:`
default supplies `get_analysers()`; `analyse` calls `_get_excludes(path)`
with no analyser dict at all, so the full registry is always what this
receives. -/
def _get_excludes (analysers : Registry) : Except PyErr (List (String × Rule)) :=
  analysers.foldlM (fun items na => na.2.excludes.foldlM (excludeStep na.1) items) []

/-! ### The directory tree and `Path.walk` -/

/-- A directory entry: a file, or a directory with its entries in `os.scandir`
order. -/
inductive FSTree where
  | file (name : String)
  | dir (name : String) (children : List FSTree)
  deriving Repr

mutual

/-- Size measure of a tree, for termination. -/
def fsSize : FSTree → Nat
  | .file _ => 1
  | .dir _ ch => 1 + fsSizeList ch

/-- Size measure of an entry list. -/
def fsSizeList : List FSTree → Nat
  | [] => 0
  | t :: ts => fsSize t + fsSizeList ts

end

/-- The subdirectory entries (name, children) of a directory, in order. -/
def dirEntries : List FSTree → List (String × List FSTree)
  | [] => []
  | .file _ :: rest => dirEntries rest
  | .dir n ch :: rest => (n, ch) :: dirEntries rest

/-- The file entries of a directory, in order. -/
def fileEntries : List FSTree → List String
  | [] => []
  | .file n :: rest => n :: fileEntries rest
  | .dir _ _ :: rest => fileEntries rest

/-- What `analyse`'s `path` argument points at: nothing, a file, or a
directory with its entries. -/
inductive PathTarget where
  | missing
  | file
  | dir (entries : List FSTree)
  deriving Repr

/-- The wrapper-collapsing loop on fuel: each descent sheds one fuel and at
least one unit of `fsSizeList`, so the `0` cutoff is unreachable from
`collapse`. -/
def collapseF : Nat → List FSTree → List FSTree
  | 0, entries => entries
  | fuel + 1, entries =>
    match entries with
    | [FSTree.dir _ ch] => collapseF fuel ch
    | _ => entries

/-- The wrapper-collapsing loop of `analyse`: while the directory holds
exactly one entry and that entry is a directory, descend into it. -/
def collapse (entries : List FSTree) : List FSTree :=
  collapseF (fsSizeList entries + 1) entries

/-- `(root / name).relative_to(path)` as a string; the scan root itself is
`"."` (`Path('.')`). -/
def relJoin (rel name : String) : String :=
  if rel == "." then name else rel ++ "/" ++ name

/-- The walker's running state: the three counters of `analyse`'s local
`stats` dict, the `groups` mapping (analyser name to matched relative
paths), and the log of directories the walk loop visited (the observable
trace of `path.walk`, recorded root-relative). -/
structure ScanState where
  num_dirs : Nat
  num_dirs_excluded : Nat
  num_files : Nat
  groups : List (String × List String)
  visited : List String
  deriving Repr

/-- The state before the walk. -/
def initScan : ScanState :=
  { num_dirs := 0, num_dirs_excluded := 0, num_files := 0,
    groups := [], visited := [] }

/-- `groups[analyser].append(relpath)`, creating the key on first use. -/
def groupAppend (g : List (String × List String)) (a rel : String) :
    List (String × List String) :=
  if (List.lookup a g).isSome then
    g.map (fun kv => if kv.1 == a then (kv.1, kv.2 ++ [rel]) else kv)
  else g ++ [(a, [rel])]

/-- The include loop over one subdirectory `d`: every directory include rule
that matches (relative path if nested, else the bare name) records the
relative path under each of its owning analysers. -/
def recordDirIncludes (includes : List (String × Rule)) (relp name : String)
    (g : List (String × List String)) : List (String × List String) :=
  includes.foldl (fun g kv =>
    let rule := kv.2
    if !rule.is_dir then g
    else if rule.matches (if rule.is_nested then relp else name) then
      rule.analysers.foldl (fun g a => groupAppend g a relp) g
    else g) g

/-- The exclude loop over one subdirectory: excluded iff some exclude rule
matches (the source breaks at the first match, so the directory is counted
once). -/
def isExcluded (excludes : List (String × Rule)) (relp name : String) : Bool :=
  excludes.any (fun kv => kv.2.matches (if kv.2.is_nested then relp else name))

/-- The file loop over one file: every non-directory include rule that
matches bumps `num_files` and records the path under the rule's owners. -/
def recordFileIncludes (includes : List (String × Rule)) (relp name : String)
    (st : Nat × List (String × List String)) : Nat × List (String × List String) :=
  includes.foldl (fun st kv =>
    let rule := kv.2
    if rule.is_dir then st
    else if rule.matches (if rule.is_nested then relp else name) then
      (st.1 + 1, rule.analysers.foldl (fun g a => groupAppend g a relp) st.2)
    else st) st

/-- One iteration of `analyse`'s `path.walk(top_down=True)` loop on explicit
fuel (one unit per directory level; each level's children have strictly
smaller `fsSizeList`, so fuel exceeding the root's size never reaches the
`0` cutoff): count and log the directory, run the include and exclude loops
over its subdirectory entries, run the include loop over its file entries,
and descend in order into the non-excluded subdirectories (the source
removes members of `excluded` from `dirs` before `walk` continues, so
pruned subtrees are never visited). -/
def walkDirF (inc exc : List (String × Rule)) : Nat → String → List FSTree →
    ScanState → ScanState
  | 0, _, _, st => st
  | fuel + 1, rel, entries, st =>
    let st := { st with num_dirs := st.num_dirs + 1, visited := st.visited ++ [rel] }
    let st := (dirEntries entries).foldl (fun s d =>
      let relp := relJoin rel d.1
      let s := { s with groups := recordDirIncludes inc relp d.1 s.groups }
      if isExcluded exc relp d.1 then
        { s with num_dirs_excluded := s.num_dirs_excluded + 1 }
      else s) st
    let st := (fileEntries entries).foldl (fun s name =>
      let relp := relJoin rel name
      let p := recordFileIncludes inc relp name (s.num_files, s.groups)
      { s with num_files := p.1, groups := p.2 }) st
    (dirEntries entries).foldl (fun s d =>
      if isExcluded exc (relJoin rel d.1) d.1 then s
      else walkDirF inc exc fuel (relJoin rel d.1) d.2 s) st

/-- The walk of the scan root. -/
def walkDir (inc exc : List (String × Rule)) (rel : String)
    (entries : List FSTree) (st : ScanState) : ScanState :=
  walkDirF inc exc (fsSizeList entries + 1) rel entries st

/-- The value `analyse` returns: the dict `{type: {} for type in
AnalyserType}` whose inner dicts would map analyser names to their results.
No inner result is ever produced: the call `analyser.analyse(path, files)`
omits the required `report` argument of `Analyser.analyse(cls, root, files,
report)` (no subclass overrides it), so the first active analyser raises a
`TypeError` that nothing catches — hence the opaque `Unit` payload. -/
abbrev AnalyseResult := List (AnalyserType × List (String × Unit))

/-- `analyse(path, skip, skip_type)`.  Returns the outcome paired with the
trace of directories the walk visited (root-relative; empty when the run
fails before the walk).  Steps, as in the source: path check
(`ValueError("Invalid path.")`), wrapper collapsing, snake-casing the skip
lists, filtering analysers and aggregators, include rules from the *active*
analysers (all of them when every one is skipped, by the falsy-dict default)
but exclude rules from `_get_excludes(path)` — whose `analysers`
argument defaults to all registered analysers — the walk, then the analyser
loop (first active analyser: `TypeError`, see `AnalyseResult`) and the
aggregator loop (`aggregator.aggregate(report[type])` likewise misses its
`results` argument). -/
def analyse (registry : Registry) (aggRegistry : AggRegistry)
    (target : PathTarget) (skip skip_type : List String) :
    Except PyErr AnalyseResult × List String :=
  match target with
  | .missing => (.error (.valueError ["Invalid path."]), [])
  | .file => (.error (.valueError ["Invalid path."]), [])
  | .dir entries =>
    let entries := collapse entries
    let skips := skip.map _snake_case
    let skipTypes := skip_type.map _snake_case
    let analysers := _filter AnalyserSpec.type registry skips skipTypes
    let aggregators := _filter AggregatorSpec.type aggRegistry skips skipTypes
    match _get_includes registry analysers with
    | .error e => (.error e, [])
    | .ok includes =>
      match _get_excludes registry with
      | .error e => (.error e, [])
      | .ok excludes =>
        let st := walkDir includes excludes "." entries initScan
        match analysers with
        | _ :: _ =>
          (.error (.typeError "analyse() missing 1 required positional argument: report"),
           st.visited)
        | [] =>
          match aggregators with
          | _ :: _ =>
            (.error (.typeError "aggregate() missing 1 required positional argument: results"),
             st.visited)
          | [] => (.ok (AnalyserType.all.map (fun t => (t, []))), st.visited)

/-! ## Derived observations and concrete scan scenarios -/

/-- The severity keys of a report's message log, in insertion order. -/
def msgKeys (r : Report) : List MessageType :=
  r.messages.map Prod.fst

/-- Whether a Python computation succeeded. -/
def exOk {α : Type} : Except PyErr α → Bool
  | .ok _ => true
  | .error _ => false

/-- The dict `{type: {} for type in AnalyserType}` that `analyse` initializes
`report` to (and, both loops being over empty active sets, returns). -/
def emptyTypeDict : AnalyseResult :=
  AnalyserType.all.map (fun t => (t, []))

/-- The `Rule` that `Rule("/LICENSE")` constructs. -/
def licenseRule : Rule :=
  { val := "LICENSE", is_dir := false, is_pattern := false, is_nested := true,
    analysers := [] }

/-- An analyser interested in `*.txt` files, with no exclude patterns. -/
def alphaSpec : AnalyserSpec :=
  { type := .CODE, includes := ["*.txt"], excludes := [] }

/-- An analyser owning the exclude pattern `b/` and no include patterns. -/
def betaSpec : AnalyserSpec :=
  { type := .LICENSE, includes := [], excludes := ["b/"] }

/-- A one-analyser registry. -/
def c1Registry : Registry := [("alpha", alphaSpec)]

/-- A scan root holding one text file. -/
def c1Tree : PathTarget := .dir [.file "readme.txt"]

/-- A registry where the analyser to be skipped (`beta`) owns the only
exclude pattern. -/
def c3Registry : Registry := [("alpha", alphaSpec), ("beta", betaSpec)]

/-- Entries of a scan root holding directory `b` (with a text file inside)
and a second entry so wrapper collapsing does not descend. -/
def c3Entries : List FSTree := [.dir "b" [.file "f.txt"], .file "readme.md"]

/-- The same entries as a scan target. -/
def c3Tree : PathTarget := .dir c3Entries

/-- A registry whose one analyser owns the single exclude pattern `a/`. -/
def c5Registry : Registry :=
  [("c5_analyser", { type := .CODE, includes := [], excludes := ["a/"] })]

/-- The exclude rule set built from `c5Registry`. -/
def c5Rules : List (String × Rule) :=
  [("a/", { val := "a", is_dir := true, is_pattern := false, is_nested := false,
            analysers := ["c5_analyser"] })]

/-- The tree `root/a/b/file.txt`. -/
def c5Tree : List FSTree := [.dir "a" [.dir "b" [.file "file.txt"]]]

/-- A registry whose analyser returns the empty string as an exclude pattern. -/
def c7EmptyPatternRegistry : Registry :=
  [("gamma", { type := .CODE, includes := [], excludes := [""] })]

/-- A registry whose analyser returns the exclude pattern `node_modules`
(no trailing slash). -/
def c7Registry : Registry :=
  [("delta", { type := .CODE, includes := [], excludes := ["node_modules"] })]

/-- Adds `license = "MIT"` from one analyser call and a second `license`
value from another call (two sequence ids), then runs the cross-attribute
pass and reads the Issue log. -/
def licenseTwoCallsRun (a1 a2 p1 p2 second : String) :
    Except PyErr (Option (List ReportMessage)) := do
  let r ← (Report.init "root").add_metadata (.cls a1) "license" (.str "MIT") (some p1)
  let r ← r.add_metadata (.cls a2) "license" (.str second) (some p2)
  let r ← r.analyse_metadata
  pure (List.lookup MessageType.ISSUE r.messages)

/-- Adds `license = ["MIT", "Apache-2.0"]` in one analyser call (one sequence
id for both entries), then runs the cross-attribute pass and reads whether
the key is recognized list-valued together with the Issue log. -/
def licenseListCallRun (a1 p1 : String) :
    Except PyErr (Bool × Option (List ReportMessage)) := do
  let r ← (Report.init "root").add_metadata (.cls a1) "license"
    (.list [.str "MIT", .str "Apache-2.0"]) (some p1)
  let r2 ← r.analyse_metadata
  pure (is_list ((List.lookup "license" r.metadata).getD []),
        List.lookup MessageType.ISSUE r2.messages)

/-! ## Claim theorems -/

/-- Claim C4 (confirmed): the rule parsed from the pattern `/LICENSE` is
anchored, hence nested (`is_nested = true`), not a directory rule;
`match("LICENSE")` is true, so the root-level file is matched via its base
name being the root-relative path, and matching the rule against the
root-relative candidate `src/LICENSE` is false. -/
theorem c4_rule_anchoring :
    ruleInit "/LICENSE" Option.none = .ok licenseRule ∧
    licenseRule.is_nested = true ∧
    licenseRule.is_dir = false ∧
    licenseRule.matches "LICENSE" = true ∧
    licenseRule.matches "src/LICENSE" = false :=
  ⟨rfl, rfl, rfl, rfl, rfl⟩

/-- Claim C10 (confirmed): `add_message` with a `type` that is not a
`MessageType` member raises `ValueError("Invalid message type.")`; being
raised before any mutation, the message log is unchanged (the report value
`r` is untouched). -/
theorem c10_invalid_message_type (r : Report) (x : String) (a : AnalyserRef)
    (m : String) (p : PathArg) :
    r.add_message (.invalid x) a m p = .error (.valueError ["Invalid message type."]) :=
  rfl

/-- Claim C8 (confirmed): `add_metadata` with an empty value — a blank
string, an empty list, or `None` — returns the report unchanged for every
starting report, and on a fresh report the keys `description`, `authors`
and `version` are absent afterwards: `has_metadata` is false and
`get_metadata` is `None`. -/
theorem c8_empty_value_suppression (r : Report) (a : AnalyserRef)
    (p : Option String) :
    r.add_metadata a "description" (.str "") p = .ok r ∧
    r.add_metadata a "authors" (.list []) p = .ok r ∧
    r.add_metadata a "version" .none p = .ok r ∧
    (Report.init "root").has_metadata "description" = false ∧
    (Report.init "root").get_metadata "description" = Option.none ∧
    (Report.init "root").has_metadata "authors" = false ∧
    (Report.init "root").get_metadata "authors" = Option.none ∧
    (Report.init "root").has_metadata "version" = false ∧
    (Report.init "root").get_metadata "version" = Option.none :=
  ⟨rfl, rfl, rfl, rfl, rfl, rfl, rfl, rfl, rfl⟩

/-- Claim C2 is a code bug: on a `doi` (or `repository_code`) value that
fails validation, `add_metadata`'s `except` handler calls
`self.add_issue(analyser, key, str(err), path)` — four positional arguments
for the three-parameter `add_issue` — so a `TypeError` propagates to the
caller instead of an Issue being recorded.  This theorem evaluates the code
at the failing inputs: the validation itself rejects the values, and
`add_metadata` raises for every starting report. -/
theorem c2_validation_failure_raises (r : Report) (a : AnalyserRef)
    (p : Option String) :
    validate_metadata "doi" (.str "not-a-doi") = .error (.valueError ["Invalid DOI."]) ∧
    validate_metadata "repository_code" (.str "not a url") =
      .error (.valueError ["Invalid URL address."]) ∧
    r.add_metadata a "doi" (.str "not-a-doi") p =
      .error (.typeError "Report.add_issue() takes from 3 to 4 positional arguments but 5 were given") ∧
    r.add_metadata a "repository_code" (.str "not a url") p =
      .error (.typeError "Report.add_issue() takes from 3 to 4 positional arguments but 5 were given") :=
  ⟨rfl, rfl, rfl, rfl⟩

/-- Claim C6 (confirmed): two `license` assertions with distinct sequence
ids and different values (`MIT` vs `Apache-2.0`) make the cross-attribute
pass emit exactly one conflict Issue naming both source paths; two
assertions of the identical value `MIT` emit none; and a single call
emitting `["MIT", "Apache-2.0"]` under one sequence id is recognized as
list-valued and skipped by conflict detection entirely. -/
theorem c6_metadata_conflicts (a1 a2 p1 p2 : String) :
    licenseTwoCallsRun a1 a2 p1 p2 "Apache-2.0" =
      .ok (some [{ val := "Multiple values exists for license."
                   analyser := .reportSelf
                   path := some [p1, p2] }]) ∧
    licenseTwoCallsRun a1 a2 p1 p2 "MIT" = .ok (some []) ∧
    licenseListCallRun a1 p1 = .ok (true, some []) :=
  ⟨rfl, rfl, rfl⟩

/-- Claim C5 (confirmed): scanning the tree `root/a/b/file.txt` with the
exclude rule set built from the single pattern `a/` yields
`num_dirs_excluded = 1` and `num_files = 0`, and the walker never visits
`root/a/b` (its visit trace is just the root): the excluded directory is
removed from the pending directory list before descent, so its children are
never traversed.  The statement holds for every include rule set, in
particular any in which no rule matches these entries. -/
theorem c5_exclude_pruning :
    _get_excludes c5Registry = .ok c5Rules ∧
    ∀ inc : List (String × Rule),
      (walkDir inc c5Rules "." c5Tree initScan).num_dirs_excluded = 1 ∧
      (walkDir inc c5Rules "." c5Tree initScan).num_files = 0 ∧
      (walkDir inc c5Rules "." c5Tree initScan).visited = ["."] ∧
      "a/b" ∉ (walkDir inc c5Rules "." c5Tree initScan).visited :=
  ⟨rfl, fun _ => ⟨rfl, rfl, rfl, by intro h; rw [show (walkDir _ c5Rules "." c5Tree initScan).visited = ["."] from rfl] at h; simp at h⟩⟩

/-- Claim C1's counterexample: with every analyser and aggregator skipped
(resp. active), `analyse` on an existing directory returns the bare
per-type dictionary `{type: {} for type in AnalyserType}` (resp. raises a
`TypeError` from the report-less `analyser.analyse(path, files)` call).
Neither outcome is a Report object; no metadata store, message log or
finalized statistics (end timestamp, duration) exist in the returned value
— the traversal counters live in a local dict that is discarded. -/
theorem c1_counterexample :
    analyse c1Registry [] c1Tree ["alpha"] [] = (.ok emptyTypeDict, ["."]) ∧
    analyse c1Registry [] c1Tree [] [] =
      (.error (.typeError "analyse() missing 1 required positional argument: report"), ["."]) :=
  ⟨rfl, rfl⟩

/-- Claim C1 as amended: whenever `analyse` returns successfully, the value
it returns is exactly the per-analyser-type dictionary of empty result
dicts — no Report is constructed and no end timestamp or duration is
populated anywhere in the returned value. -/
theorem c1_returns_bare_type_dict (registry : Registry) (agg : AggRegistry)
    (target : PathTarget) (skip skip_type : List String) (res : AnalyseResult)
    (log : List String)
    (h : analyse registry agg target skip skip_type = (.ok res, log)) :
    res = emptyTypeDict := by
  cases target with
  | missing => simp [analyse] at h
  | file => simp [analyse] at h
  | dir entries =>
    rw [analyse] at h
    rcases hi : _get_includes registry (_filter AnalyserSpec.type registry
      (skip.map _snake_case) (skip_type.map _snake_case)) with e | includes
    · rw [hi] at h
      simp at h
    · rw [hi] at h
      rcases he : _get_excludes registry with e | excludes
      · rw [he] at h
        simp at h
      · rw [he] at h
        rcases hf : _filter AnalyserSpec.type registry
            (skip.map _snake_case) (skip_type.map _snake_case) with _ | ⟨na, rest⟩
        · rw [hf] at h
          rcases hg : _filter AggregatorSpec.type agg
              (skip.map _snake_case) (skip_type.map _snake_case) with _ | ⟨g, grest⟩
          · rw [hg] at h
            simp only [Prod.mk.injEq] at h
            have := h.1
            simp only [Except.ok.injEq] at this
            exact this.symm
          · rw [hg] at h
            simp at h
        · rw [hf] at h
          simp at h

/-- Witness for C1's amended theorem at a concrete input: the skip-everything
run of `analyse` succeeds and its value is the bare type dictionary. -/
theorem c1_returns_bare_type_dict_witness :
    analyse c1Registry [] c1Tree ["alpha"] [] = (.ok emptyTypeDict, ["."]) ∧
    emptyTypeDict = emptyTypeDict :=
  ⟨rfl, c1_returns_bare_type_dict c1Registry [] c1Tree ["alpha"] [] emptyTypeDict ["."] rfl⟩

/-- Claim C3's counterexample: with analyser `beta` skipped, the active set
is `{alpha}` and the exclude rule set built from the active analysers is
empty — yet the scan prunes directory `b` (the visit trace is just the
root), because `analyse` builds its exclude rules from all registered
analysers.  Removing `beta` from the registry instead of skipping it makes
the walker visit `b`. -/
theorem c3_counterexample :
    _filter AnalyserSpec.type c3Registry ["beta"] [] = [("alpha", alphaSpec)] ∧
    _get_excludes (_filter AnalyserSpec.type c3Registry ["beta"] []) = .ok [] ∧
    (analyse c3Registry [] c3Tree ["beta"] []).2 = ["."] ∧
    (analyse [("alpha", alphaSpec)] [] c3Tree ["beta"] []).2 = [".", "b"] :=
  ⟨rfl, rfl, rfl, rfl⟩

/-- Claim C7's counterexample: the empty string is an exclude pattern not
ending in `/`, yet building the exclude rule set from it fails with an
`IndexError` from `Rule.__init__`'s `val[-1]`, not with
`ValueError("Invalid exclusion rule.")`. -/
theorem c7_counterexample :
    _get_excludes c7EmptyPatternRegistry = .error (.indexError "string index out of range") ∧
    _get_excludes c7EmptyPatternRegistry ≠
      .error (.valueError ["Invalid exclusion rule.", ""]) :=
  ⟨rfl, fun h => PyErr.noConfusion (Except.error.inj h)⟩

theorem exc_bind_ok {α β : Type} (a : α) (f : α → Except PyErr β) :
    (Except.ok a >>= f) = f a := rfl

theorem exc_bind_error {α β : Type} (e : PyErr) (f : α → Except PyErr β) :
    ((Except.error e : Except PyErr α) >>= f) = .error e := rfl

theorem map_fst_msgUpdate (l : List (MessageType × List ReportMessage))
    (t : MessageType) (m : ReportMessage) :
    ((l.map (fun kv => if kv.1 == t then (kv.1, kv.2 ++ [m]) else kv)).map Prod.fst) =
      l.map Prod.fst := by
  induction l with
  | nil => rfl
  | cons kv rest ih =>
    cases h : kv.1 == t <;> simp [h, ih]

theorem add_message_msgKeys (r : Report) (t : MsgTypeArg) (a : AnalyserRef)
    (m : String) (pa : PathArg) (r' : Report)
    (h : r.add_message t a m pa = .ok r') : msgKeys r' = msgKeys r := by
  cases t with
  | invalid x => simp [Report.add_message] at h
  | valid t =>
    have finish : ∀ stored : Option (List String),
        ((match List.lookup t r.messages with
          | Option.none => throw (.keyError "MessageType")
          | some _ =>
            pure { r with messages :=
              r.messages.map (fun kv : MessageType × List ReportMessage =>
                if kv.1 == t then (kv.1, kv.2 ++ [ReportMessage.mk m a stored]) else kv) } :
            Except PyErr Report)) = .ok r' →
        msgKeys r' = msgKeys r := by
      intro stored hm
      rcases hl : List.lookup t r.messages with _ | msgs
      · rw [hl] at hm
        simp [throw, throwThe, MonadExceptOf.throw] at hm
      · rw [hl] at hm
        simp only [pure, Except.pure, Except.ok.injEq] at hm
        rw [← hm]
        exact map_fst_msgUpdate r.messages t _
    cases pa with
    | none => exact finish _ h
    | one p => exact finish _ h
    | many ps =>
      cases ps with
      | nil => exact finish _ h
      | cons p rest =>
        rcases hc : convertPathList (p :: rest) with e | l
        · rw [Report.add_message] at h
          simp only [List.isEmpty_cons, if_false, Bool.false_eq_true, hc,
            exc_bind_error] at h
          exact Except.noConfusion h
        · rw [Report.add_message] at h
          simp only [List.isEmpty_cons, if_false, Bool.false_eq_true, hc,
            exc_bind_ok] at h
          exact finish _ h

/-- Claim C9 (confirmed): from construction onward the message log has
exactly the five severity keys in order — `Report.__init__` creates them all
— and every message-adding operation that returns leaves the key list
unchanged, so consumers never need existence checks. -/
theorem c9_messages_invariant :
    (∀ p, msgKeys (Report.init p) = MessageType.all) ∧
    (∀ r t a m pa r', Report.add_message r t a m pa = .ok r' → msgKeys r' = msgKeys r) ∧
    (∀ r a m pa r', Report.add_issue r a m pa = .ok r' → msgKeys r' = msgKeys r) ∧
    (∀ r a m pa r', Report.add_warning r a m pa = .ok r' → msgKeys r' = msgKeys r) ∧
    (∀ r a m pa r', Report.add_notice r a m pa = .ok r' → msgKeys r' = msgKeys r) ∧
    (∀ r a m pa r', Report.add_suggestion r a m pa = .ok r' → msgKeys r' = msgKeys r) ∧
    (∀ r a m pa r', Report.add_info r a m pa = .ok r' → msgKeys r' = msgKeys r) :=
  ⟨fun _ => rfl,
   fun r t a m pa r' h => add_message_msgKeys r t a m pa r' h,
   fun r a m pa r' h => add_message_msgKeys r _ a m pa r' h,
   fun r a m pa r' h => add_message_msgKeys r _ a m pa r' h,
   fun r a m pa r' h => add_message_msgKeys r _ a m pa r' h,
   fun r a m pa r' h => add_message_msgKeys r _ a m pa r' h,
   fun r a m pa r' h => add_message_msgKeys r _ a m pa r' h⟩

/-- Witness for C9 at a concrete input: a fresh report has the five keys,
and a successful `add_message` keeps them. -/
theorem c9_messages_invariant_witness :
    msgKeys (Report.init "p") = MessageType.all ∧
    ∃ r', Report.add_message (Report.init "p") (.valid .ISSUE) (.cls "a") "m" .none = .ok r' ∧
      msgKeys r' = MessageType.all :=
  ⟨c9_messages_invariant.1 "p",
   ⟨_, rfl,
    (c9_messages_invariant.2.1 (Report.init "p") (.valid .ISSUE) (.cls "a") "m"
      .none _ rfl).trans (c9_messages_invariant.1 "p")⟩⟩

theorem foldl_visited_pair {α : Type} (f g : ScanState → α → ScanState)
    (h : ∀ s s' x, s.visited = s'.visited → (f s x).visited = (g s' x).visited) :
    ∀ (l : List α) (s s' : ScanState), s.visited = s'.visited →
      (l.foldl f s).visited = (l.foldl g s').visited := by
  intro l
  induction l with
  | nil => intro s s' hs; exact hs
  | cons x xs ih =>
    intro s s' hs
    rw [List.foldl_cons, List.foldl_cons]
    exact ih _ _ (h _ _ _ hs)

/-- The directories the walk visits depend only on the exclude rules (and
the tree): the include rules touch only `groups` and `num_files`. -/
theorem walkDirF_visited_inc_indep (exc : List (String × Rule)) :
    ∀ (fuel : Nat) (rel : String) (entries : List FSTree)
      (inc inc' : List (String × Rule)) (st st' : ScanState),
      st.visited = st'.visited →
      (walkDirF inc exc fuel rel entries st).visited =
      (walkDirF inc' exc fuel rel entries st').visited := by
  intro fuel
  induction fuel with
  | zero => intro rel entries inc inc' st st' h; exact h
  | succ fuel ih =>
    intro rel entries inc inc' st st' h
    rw [walkDirF, walkDirF]
    apply foldl_visited_pair
    · intro s s' d hs
      by_cases hx : isExcluded exc (relJoin rel d.1) d.1 = true
      · rw [if_pos hx, if_pos hx]
        exact hs
      · rw [if_neg hx, if_neg hx]
        exact ih _ _ _ _ _ _ hs
    · apply foldl_visited_pair
      · intro s s' name hs
        exact hs
      · apply foldl_visited_pair
        · intro s s' d hs
          by_cases hx : isExcluded exc (relJoin rel d.1) d.1 = true
          · rw [if_pos hx, if_pos hx]
            exact hs
          · rw [if_neg hx, if_neg hx]
            exact hs
        · show st.visited ++ [rel] = st'.visited ++ [rel]
          rw [h]

/-- On a successful rule build, the second component of `analyse` is the
walk's visit trace. -/
theorem analyse_dir_snd (registry : Registry) (agg : AggRegistry)
    (entries : List FSTree) (skip skip_type : List String)
    (inc exc : List (String × Rule))
    (hi : _get_includes registry (_filter AnalyserSpec.type registry
      (skip.map _snake_case) (skip_type.map _snake_case)) = .ok inc)
    (he : _get_excludes registry = .ok exc) :
    (analyse registry agg (.dir entries) skip skip_type).2 =
      (walkDir inc exc "." (collapse entries) initScan).visited := by
  rw [analyse, hi, he]
  rcases _filter AnalyserSpec.type registry
      (skip.map _snake_case) (skip_type.map _snake_case) with _ | ⟨na, rest⟩
  · rcases _filter AggregatorSpec.type agg
        (skip.map _snake_case) (skip_type.map _snake_case) with _ | ⟨g, grest⟩
    · rfl
    · rfl
  · rfl

/-- Claim C3 as amended: the include rule set is built from the active
(non-skipped) analysers — falling back to all analysers when every one is
skipped — but the exclude rule set that drives the scan is built from all
registered analysers, ignoring the skip lists; so as long as the rule sets
build successfully, the walker visits exactly the same directories
whatever the skip lists (and whatever the aggregators) are. -/
theorem c3_excludes_ignore_skip (registry : Registry) (agg agg' : AggRegistry)
    (entries : List FSTree) (skip skip_type skip' skip_type' : List String)
    (h1 : exOk (_get_includes registry (_filter AnalyserSpec.type registry
      (skip.map _snake_case) (skip_type.map _snake_case))) = true)
    (h2 : exOk (_get_includes registry (_filter AnalyserSpec.type registry
      (skip'.map _snake_case) (skip_type'.map _snake_case))) = true)
    (h3 : exOk (_get_excludes registry) = true) :
    (analyse registry agg (.dir entries) skip skip_type).2 =
    (analyse registry agg' (.dir entries) skip' skip_type').2 := by
  rcases hi1 : _get_includes registry (_filter AnalyserSpec.type registry
      (skip.map _snake_case) (skip_type.map _snake_case)) with e | inc1
  · rw [hi1] at h1
    simp [exOk] at h1
  rcases hi2 : _get_includes registry (_filter AnalyserSpec.type registry
      (skip'.map _snake_case) (skip_type'.map _snake_case)) with e | inc2
  · rw [hi2] at h2
    simp [exOk] at h2
  rcases he : _get_excludes registry with e | exc
  · rw [he] at h3
    simp [exOk] at h3
  rw [analyse_dir_snd registry agg entries skip skip_type inc1 exc hi1 he,
      analyse_dir_snd registry agg' entries skip' skip_type' inc2 exc hi2 he]
  exact walkDirF_visited_inc_indep exc _ _ _ _ _ _ _ rfl

/-- Witness for C3's amended theorem at a concrete input: skipping `beta`
leaves the same visit trace as skipping nothing. -/
theorem c3_excludes_ignore_skip_witness :
    (analyse c3Registry [] (.dir c3Entries) ["beta"] []).2 =
    (analyse c3Registry [] (.dir c3Entries) [] []).2 :=
  c3_excludes_ignore_skip c3Registry [] [] c3Entries ["beta"] [] [] [] rfl rfl rfl

/-- `Rule.__init__` succeeds on every pattern other than the empty string
and the bare `/`, and `is_dir` holds exactly for the patterns ending in
`/`. -/
theorem ruleInit_wf (p : String) (owner : Option String)
    (h0 : p.data ≠ []) (h1 : p.data ≠ ['/']) :
    ∃ r : Rule, ruleInit p owner = .ok r ∧ r.is_dir = (p.data.getLast? == some '/') := by
  rcases hl : p.data.getLast? with _ | lastc
  · exact absurd (List.getLast?_eq_none_iff.mp hl) h0
  · by_cases hc : lastc = '/'
    · subst hc
      have hdl : p.data.dropLast ≠ [] := by
        intro hdl
        apply h1
        have hne := h0
        have hsplit := List.dropLast_append_getLast hne
        rw [hdl] at hsplit
        rw [List.getLast?_eq_getLast _ hne] at hl
        simp at hl
        rw [← hsplit, hl]
        rfl
      rcases hdrop : p.data.dropLast with _ | ⟨c0, rest⟩
      · exact absurd hdrop hdl
      · rcases hres : ruleInit p owner with e | r
        · rw [ruleInit.eq_def] at hres
          simp [hl, hdrop] at hres
          exact Except.noConfusion hres
        · refine ⟨r, rfl, ?_⟩
          rw [ruleInit.eq_def] at hres
          simp [hl, hdrop, pure, Except.pure, Except.ok.injEq] at hres
          subst hres
          simp [hl]
    · have hb : (lastc == '/') = false := by
        simp [hc]
      rcases hp : p.data with _ | ⟨c0, rest⟩
      · exact absurd hp h0
      · rcases hres : ruleInit p owner with e | r
        · rw [ruleInit.eq_def] at hres
          rw [hp] at hl
          simp [hp, hl, hb, hc] at hres
          exact Except.noConfusion hres
        · refine ⟨r, rfl, ?_⟩
          rw [ruleInit.eq_def] at hres
          rw [hp] at hl
          simp [hp, hl, hb, hc, pure, Except.pure, Except.ok.injEq] at hres
          subst hres
          simp [hl, hb]

theorem excludeFold_pats (name : String) :
    ∀ (pats : List String) (items : List (String × Rule)),
      (∀ p ∈ pats, p.data ≠ [] ∧ p.data ≠ ['/']) →
      ((∀ p ∈ pats, p.data.getLast? = some '/') →
        ∃ items', pats.foldlM (excludeStep name) items = .ok items') ∧
      ((∃ p ∈ pats, p.data.getLast? ≠ some '/') →
        ∃ p, p.data.getLast? ≠ some '/' ∧
          pats.foldlM (excludeStep name) items =
            .error (.valueError ["Invalid exclusion rule.", p])) := by
  intro pats
  induction pats with
  | nil =>
    intro items hwf
    refine ⟨fun _ => ⟨items, rfl⟩, fun hex => ?_⟩
    simp at hex
  | cons p ps ih =>
    intro items hwf
    have hpwf := hwf p (List.mem_cons_self p ps)
    obtain ⟨r, hr, hrd⟩ := ruleInit_wf p (some name) hpwf.1 hpwf.2
    have hwf' : ∀ q ∈ ps, q.data ≠ [] ∧ q.data ≠ ['/'] :=
      fun q hq => hwf q (List.mem_cons_of_mem p hq)
    by_cases hp : p.data.getLast? = some '/'
    · have hdir : r.is_dir = true := by
        rw [hrd, hp]
        simp
      have hstep : excludeStep name items p = .ok (assocSet items p r) := by
        rw [excludeStep, hr, exc_bind_ok, hdir]
        rfl
      constructor
      · intro hall
        obtain ⟨items', hi⟩ := (ih (assocSet items p r) hwf').1
          (fun q hq => hall q (List.mem_cons_of_mem p hq))
        exact ⟨items', by rw [List.foldlM_cons, hstep, exc_bind_ok, hi]⟩
      · intro hex
        rcases hex with ⟨q, hq, hqbad⟩
        rcases List.mem_cons.mp hq with rfl | hq'
        · exact absurd hp hqbad
        · obtain ⟨b, hb1, hb2⟩ := (ih (assocSet items p r) hwf').2 ⟨q, hq', hqbad⟩
          exact ⟨b, hb1, by rw [List.foldlM_cons, hstep, exc_bind_ok, hb2]⟩
    · have hdir : r.is_dir = false := by
        rw [hrd]
        simp only [beq_eq_false_iff_ne, ne_eq]
        exact hp
      have hstep : excludeStep name items p =
          .error (.valueError ["Invalid exclusion rule.", p]) := by
        rw [excludeStep, hr, exc_bind_ok, hdir]
        rfl
      refine ⟨fun hall => absurd (hall p (List.mem_cons_self p ps)) hp, fun _ => ?_⟩
      exact ⟨p, hp, by rw [List.foldlM_cons, hstep, exc_bind_error]⟩

theorem excludeFold_reg :
    ∀ (regs : Registry) (items : List (String × Rule)),
      (∀ na ∈ regs, ∀ p ∈ na.2.excludes, p.data ≠ [] ∧ p.data ≠ ['/']) →
      ((∀ na ∈ regs, ∀ p ∈ na.2.excludes, p.data.getLast? = some '/') →
        ∃ items', regs.foldlM
          (fun items na => na.2.excludes.foldlM (excludeStep na.1) items) items = .ok items') ∧
      ((∃ na ∈ regs, ∃ p ∈ na.2.excludes, p.data.getLast? ≠ some '/') →
        ∃ p, p.data.getLast? ≠ some '/' ∧
          regs.foldlM (fun items na => na.2.excludes.foldlM (excludeStep na.1) items) items =
            .error (.valueError ["Invalid exclusion rule.", p])) := by
  intro regs
  induction regs with
  | nil =>
    intro items hwf
    refine ⟨fun _ => ⟨items, rfl⟩, fun hex => ?_⟩
    simp at hex
  | cons na rest ih =>
    intro items hwf
    have hnawf := hwf na (List.mem_cons_self na rest)
    have hwf' : ∀ nb ∈ rest, ∀ p ∈ nb.2.excludes, p.data ≠ [] ∧ p.data ≠ ['/'] :=
      fun nb hb => hwf nb (List.mem_cons_of_mem na hb)
    by_cases hna : ∀ p ∈ na.2.excludes, p.data.getLast? = some '/'
    · obtain ⟨items1, h1⟩ := (excludeFold_pats na.1 na.2.excludes items hnawf).1 hna
      constructor
      · intro hall
        obtain ⟨items', hi⟩ := (ih items1 hwf').1
          (fun nb hb => hall nb (List.mem_cons_of_mem na hb))
        exact ⟨items', by rw [List.foldlM_cons, h1, exc_bind_ok, hi]⟩
      · intro hex
        rcases hex with ⟨nb, hb, q, hq, hqbad⟩
        rcases List.mem_cons.mp hb with rfl | hb'
        · exact absurd (hna q hq) hqbad
        · obtain ⟨b, hb1, hb2⟩ := (ih items1 hwf').2 ⟨nb, hb', q, hq, hqbad⟩
          exact ⟨b, hb1, by rw [List.foldlM_cons, h1, exc_bind_ok, hb2]⟩
    · push_neg at hna
      rcases hna with ⟨q, hq, hqbad⟩
      obtain ⟨b, hb1, hb2⟩ := (excludeFold_pats na.1 na.2.excludes items hnawf).2 ⟨q, hq, hqbad⟩
      refine ⟨fun hall => absurd (hall na (List.mem_cons_self na rest) q hq) hqbad, fun _ => ?_⟩
      exact ⟨b, hb1, by rw [List.foldlM_cons, hb2, exc_bind_error]⟩

/-- Claim C7 as amended: for every registry whose exclude patterns are all
nonempty (and not the bare `/`), if some exclude pattern does not end in
`/` then building the exclude rule set fails with
`ValueError("Invalid exclusion rule.", pattern)` — the `InvalidRule` error —
and `analyse` (whenever its include rules build) propagates exactly that
error with an empty visit trace: the failure happens during rule-set
assembly, before any directory traversal begins.  (An empty exclude pattern
instead fails with an `IndexError`, see the counterexample.) -/
theorem c7_invalid_exclude (registry : Registry)
    (h1 : ∀ na ∈ registry, ∀ p ∈ na.2.excludes, p.data ≠ [] ∧ p.data ≠ ['/'])
    (h2 : ∃ na ∈ registry, ∃ p ∈ na.2.excludes, p.data.getLast? ≠ some '/') :
    ∃ p, p.data.getLast? ≠ some '/' ∧
      _get_excludes registry = .error (.valueError ["Invalid exclusion rule.", p]) ∧
      ∀ (agg : AggRegistry) (entries : List FSTree) (skip skip_type : List String),
        exOk (_get_includes registry (_filter AnalyserSpec.type registry
          (skip.map _snake_case) (skip_type.map _snake_case))) = true →
        analyse registry agg (.dir entries) skip skip_type =
          (.error (.valueError ["Invalid exclusion rule.", p]), []) := by
  obtain ⟨p, hp, herr0⟩ := (excludeFold_reg registry [] h1).2 h2
  have herr : _get_excludes registry = .error (.valueError ["Invalid exclusion rule.", p]) := herr0
  refine ⟨p, hp, herr, ?_⟩
  intro agg entries skip skip_type hinc
  rcases hi : _get_includes registry (_filter AnalyserSpec.type registry
      (skip.map _snake_case) (skip_type.map _snake_case)) with e | inc
  · rw [hi] at hinc
    simp [exOk] at hinc
  · rw [analyse, hi, herr]

/-- Witness for C7's amended theorem at the concrete registry whose one
exclude pattern is `node_modules`. -/
theorem c7_invalid_exclude_witness :
    ∃ p, p.data.getLast? ≠ some '/' ∧
      _get_excludes c7Registry = .error (.valueError ["Invalid exclusion rule.", p]) ∧
      analyse c7Registry [] (.dir [.file "a.txt"]) [] [] =
        (.error (.valueError ["Invalid exclusion rule.", p]), []) := by
  obtain ⟨p, hp, herr, hall⟩ := c7_invalid_exclude c7Registry
    (by decide) (by decide)
  exact ⟨p, hp, herr, hall [] [.file "a.txt"] [] [] rfl⟩

end Codescanner
